import Mathlib

set_option maxHeartbeats 1000000

/-!
Shallow embedding of the christmas-lofi particle core: the math utilities,
the color interpolation, the weighted palette pick, the simplex-noise
wrapper class with fractal octaves and the flow field, the generic object
pool, and the snow and sparkle particle systems.  JavaScript numbers are
modelled by exact rationals; the platform functions that the code calls
but does not define (the simplex-noise library samplers, Math.sin and the
Math.random stream) are oracle parameters carried in environment records.
-/

/-- Linear interpolation, from src/utils/math.js `lerp`. -/
def lerp (a b t : ℚ) : ℚ :=
  a + (b - a) * t

/-- Random float in a range, from src/utils/math.js `randomRange`;
the draw of Math.random is passed in as `r`. -/
def randomRange (lo hi r : ℚ) : ℚ :=
  lo + r * (hi - lo)

/-- Random integer in an inclusive range, from src/utils/math.js `randomInt`. -/
def randomInt (lo hi r : ℚ) : ℤ :=
  Int.floor (randomRange lo (hi + 1) r)

/-- The cumulative-weight scan inside `randomPick` (and `pickFromPalette`):
walk the item list, accumulating weights, returning the first item whose
cumulative bucket contains the draw `r`; `none` means the loop fell through. -/
def pickScan {α : Type} : List (α × ℚ) → ℚ → ℚ → Option α
  | [], _, _ => none
  | (x, w) :: rest, r, sum => if r ≤ sum + w then some x else pickScan rest r (sum + w)

/-- Weighted or uniform pick, from src/utils/math.js `randomPick`.  With no
weights it indexes by `randomInt`; with weights it scans cumulative buckets
and falls through to the LAST item of the list. -/
def randomPick {α : Type} (items : List α) (weights : Option (List ℚ)) (r : ℚ) : Option α :=
  match weights with
  | none => items.get? (Int.toNat (randomInt 0 ((items.length : ℚ) - 1) r))
  | some ws =>
      match pickScan (items.zip ws) r 0 with
      | some x => some x
      | none => items.getLast?

/-- A lofi palette, from src/utils/color.js: three colors and a parallel
weights array. -/
structure Palette where
  dominant : Nat
  secondary : Nat
  accent : Nat
  weights : List ℚ

/-- Weighted color pick, from src/utils/color.js `pickFromPalette`.  The
fallthrough returns `colors[0]`, the dominant color. -/
def pickFromPalette (p : Palette) (r : ℚ) : Option Nat :=
  let colors := [p.dominant, p.secondary, p.accent]
  match pickScan (colors.zip p.weights) r 0 with
  | some c => some c
  | none => colors.head?

/-- JavaScript Math.round: round half toward positive infinity. -/
def jsRound (q : ℚ) : ℤ :=
  Int.floor (q + 1 / 2)

/-- Lerp between two hex colors, from src/utils/color.js `lerpColor`:
extract the three channel bytes of each color, interpolate and round each
channel, and reassemble with shifts and bitwise or. -/
def lerpColor (color1 color2 : Nat) (t : ℚ) : ℤ :=
  let r1 := (color1 >>> 16) &&& 0xFF
  let g1 := (color1 >>> 8) &&& 0xFF
  let b1 := color1 &&& 0xFF
  let r2 := (color2 >>> 16) &&& 0xFF
  let g2 := (color2 >>> 8) &&& 0xFF
  let b2 := color2 &&& 0xFF
  let r := jsRound ((r1 : ℚ) + ((r2 : ℚ) - (r1 : ℚ)) * t)
  let g := jsRound ((g1 : ℚ) + ((g2 : ℚ) - (g1 : ℚ)) * t)
  let b := jsRound ((b1 : ℚ) + ((b2 : ℚ) - (b1 : ℚ)) * t)
  Int.lor (Int.lor (r <<< (16 : ℤ)) (g <<< (8 : ℤ))) b

/-- A constructed noise instance, from src/utils/noise.js: the three
sampler closures produced by the simplex-noise library. -/
structure Noise where
  noise2D : ℚ → ℚ → ℚ
  noise3D : ℚ → ℚ → ℚ → ℚ
  noise4D : ℚ → ℚ → ℚ → ℚ → ℚ

/-- The simplex-noise library surface: each factory consumes a random
source (a stream of draws) and returns a sampler.  Uninterpreted here. -/
structure NoiseLib where
  createNoise2D : (Nat → ℚ) → ℚ → ℚ → ℚ
  createNoise3D : (Nat → ℚ) → ℚ → ℚ → ℚ → ℚ
  createNoise4D : (Nat → ℚ) → ℚ → ℚ → ℚ → ℚ → ℚ

/-- The Noise constructor, from src/utils/noise.js: with a truthy seed the
factories receive the constant function returning the seed; otherwise they
receive the ambient Math.random stream of the constructing process. -/
def mkNoise (lib : NoiseLib) (mathRandom : Nat → ℚ) (seed : ℚ) : Noise :=
  let seedFn : Nat → ℚ := if seed ≠ 0 then fun _ => seed else mathRandom
  { noise2D := lib.createNoise2D seedFn
    noise3D := lib.createNoise3D seedFn
    noise4D := lib.createNoise4D seedFn }

/-- The octave accumulation loop shared by `fbm2D` and `fbm3D`: given the
single-octave sample as a function of frequency, returns the pair of the
accumulated value and the accumulated total amplitude. -/
def fbmLoop (sample : ℚ → ℚ) (lacunarity persistence : ℚ) :
    Nat → ℚ → ℚ → ℚ × ℚ
  | 0, _, _ => (0, 0)
  | n + 1, amplitude, frequency =>
      let rest := fbmLoop sample lacunarity persistence n
        (amplitude * persistence) (frequency * lacunarity)
      (amplitude * sample frequency + rest.1, amplitude + rest.2)

/-- Fractal Brownian motion over 2D noise, from src/utils/noise.js `fbm2D`:
sum `octaves` layers at geometrically increasing frequency and decreasing
amplitude, then divide by the accumulated amplitude. -/
def fbm2D (n : Noise) (x y : ℚ) (octaves : Nat) (lacunarity persistence scale : ℚ) : ℚ :=
  let acc := fbmLoop (fun frequency => n.noise2D (x * frequency) (y * frequency))
    lacunarity persistence octaves 1 scale
  acc.1 / acc.2

/-- Fractal Brownian motion over 3D noise, from src/utils/noise.js `fbm3D`. -/
def fbm3D (n : Noise) (x y z : ℚ) (octaves : Nat) (lacunarity persistence scale : ℚ) : ℚ :=
  let acc := fbmLoop (fun frequency =>
      n.noise3D (x * frequency) (y * frequency) (z * frequency))
    lacunarity persistence octaves 1 scale
  acc.1 / acc.2

/-- Time-varying 2D vector field, from src/utils/noise.js `flowField`: two
`fbm3D` samples with default options (octaves 4, lacunarity 2, persistence
one half, scale 1), the second offset by the fixed constant 100. -/
def flowField (n : Noise) (x y time scale timeScale : ℚ) : ℚ × ℚ :=
  let t := time * timeScale
  (fbm3D n (x * scale) (y * scale) t 4 2 (1 / 2) 1,
   fbm3D n (x * scale + 100) (y * scale + 100) t 4 2 (1 / 2) 1)

/-- State of an ObjectPool, from src/utils/pool.js.  Pooled entities are
identified by the order the factory created them; `pool` is the free-list
array (its last element is the top of the stack), `active` the Set of
checked-out entities, `nextId` the number of factory calls so far (the
factory is assumed to return a fresh object on every call), and `vals`
the mutable payload carried by each entity. -/
structure PoolState (α : Type) where
  pool : List Nat
  active : Finset Nat
  nextId : Nat
  vals : Nat → α

/-- The ObjectPool constructor: pre-allocate `initialSize` entities into
the free list; `d` is the payload a factory-fresh entity carries. -/
def mkPool {α : Type} (d : α) (initialSize : Nat) : PoolState α :=
  { pool := List.range initialSize
    active := ∅
    nextId := initialSize
    vals := fun _ => d }

/-- Apply an optional initializer or reset callback to a payload. -/
def applyOpt {α : Type} (f : Option (α → α)) (x : α) : α :=
  match f with
  | some g => g x
  | none => x

/-- ObjectPool.acquire: pop the last element of the free list, or invoke
the factory if the free list is empty; add it to the active set and apply
the optional initializer.  Returns the entity and the new pool state. -/
def acquire {α : Type} (s : PoolState α) (initializer : Option (α → α)) :
    Nat × PoolState α :=
  match s.pool.getLast? with
  | some obj =>
      (obj, { s with
        pool := s.pool.dropLast
        active := insert obj s.active
        vals := Function.update s.vals obj (applyOpt initializer (s.vals obj)) })
  | none =>
      (s.nextId, { s with
        nextId := s.nextId + 1
        active := insert s.nextId s.active
        vals := Function.update s.vals s.nextId (applyOpt initializer (s.vals s.nextId)) })

/-- ObjectPool.release: a no-op unless the entity is in the active set;
otherwise remove it from the active set, apply the optional reset, and
push it onto the free list. -/
def release {α : Type} (s : PoolState α) (obj : Nat) (reset : Option (α → α)) :
    PoolState α :=
  if obj ∈ s.active then
    { s with
      active := s.active.erase obj
      vals := Function.update s.vals obj (applyOpt reset (s.vals obj))
      pool := s.pool ++ [obj] }
  else s

/-- ObjectPool.releaseAll: push every active entity onto the free list
(the Set is iterated in ascending entity order here; the JavaScript Set
iterates in insertion order, which no observed property depends on),
applying the optional reset to each, and clear the active set. -/
def releaseAll {α : Type} (s : PoolState α) (reset : Option (α → α)) : PoolState α :=
  { s with
    pool := s.pool ++ s.active.sort (· ≤ ·)
    active := ∅
    vals := fun k => if k ∈ s.active then applyOpt reset (s.vals k) else s.vals k }

/-- The record returned by the ObjectPool `stats` getter. -/
structure PoolStats where
  available : Nat
  active : Nat
  total : Nat
deriving DecidableEq

/-- ObjectPool.stats: available, active, and their sum. -/
def stats {α : Type} (s : PoolState α) : PoolStats :=
  { available := s.pool.length
    active := s.active.card
    total := s.pool.length + s.active.card }

/-- ObjectPool.expand: push `count` freshly factoried entities onto the
free list. -/
def expand {α : Type} (s : PoolState α) (count : Nat) : PoolState α :=
  { s with
    pool := s.pool ++ (List.range count).map (fun i => s.nextId + i)
    nextId := s.nextId + count }

/-- One client call on an ObjectPool. -/
inductive PoolOp (α : Type) where
  | acq : Option (α → α) → PoolOp α
  | rel : Nat → Option (α → α) → PoolOp α
  | relAll : Option (α → α) → PoolOp α
  | exp : Nat → PoolOp α

/-- Interpret one pool call. -/
def poolStep {α : Type} (s : PoolState α) : PoolOp α → PoolState α
  | PoolOp.acq f => (acquire s f).2
  | PoolOp.rel e f => release s e f
  | PoolOp.relAll f => releaseAll s f
  | PoolOp.exp n => expand s n

/-- Interpret a sequence of pool calls. -/
def runOps {α : Type} (s : PoolState α) : List (PoolOp α) → PoolState α
  | [] => s
  | op :: ops => runOps (poolStep s op) ops

/-- Overwrite the payload of one pooled entity (a field assignment on the
JavaScript object). -/
def setVal {α : Type} (s : PoolState α) (k : Nat) (v : α) : PoolState α :=
  { s with vals := Function.update s.vals k v }

/-- The structural pool invariant: the free list holds no duplicates, no
entity is both free and active, and the entities created so far are
exactly those in one of the two collections. -/
def PoolInv {α : Type} (s : PoolState α) : Prop :=
  s.pool.Nodup
  ∧ (∀ x, ¬(x ∈ s.pool ∧ x ∈ s.active))
  ∧ (∀ x, x < s.nextId ↔ (x ∈ s.pool ∨ x ∈ s.active))

/-- A snowflake particle, from src/scenes/SnowSystem.js: the Graphics
object fields the system reads and writes. -/
structure SnowP where
  x : ℚ
  y : ℚ
  vx : ℚ
  vy : ℚ
  depth : ℚ
  scale : ℚ
  alpha : ℚ
  wobbleSpeed : ℚ
  wobbleOffset : ℚ
  wobbleAmount : ℚ
  noiseOffset : ℚ
  rotationSpeed : ℚ
  rotation : ℚ
  visible : Bool

/-- A factory-fresh snowflake (`createSnowflake`): a unit Graphics circle
before any initializer ran. -/
def snowDefault : SnowP :=
  { x := 0, y := 0, vx := 0, vy := 0, depth := 0, scale := 1, alpha := 1
    wobbleSpeed := 0, wobbleOffset := 0, wobbleAmount := 0, noiseOffset := 0
    rotationSpeed := 0, rotation := 0, visible := true }

/-- The ambient platform functions the SnowSystem calls: its own (unseeded)
Noise instance, Math.sin, the Math.random stream, the float value of
Math.PI times two, and the configured wind strength option. -/
structure SnowEnv where
  noise : Noise
  sinQ : ℚ → ℚ
  rand : Nat → ℚ
  twoPi : ℚ
  windStrength : ℚ

/-- Mutable state of a SnowSystem: the live particle array (entity ids in
array order), the object pool, the Math.random cursor, and the wind state. -/
structure SnowSt where
  particles : List Nat
  pool : PoolState SnowP
  randIdx : Nat
  windDirection : ℚ
  targetWindDirection : ℚ
  windChangeTimer : ℚ

/-- The initializer closure passed to acquire by SnowSystem.spawnParticle:
rolls position (top edge when `atTop`), depth and the depth-derived size,
speed and alpha, and the wobble, noise-offset and rotation rolls (`k` is
the position of the Math.random cursor when the closure runs). -/
def snowSpawnInit (env : SnowEnv) (w h : ℚ) (atTop : Bool) (k : Nat) (p : SnowP) : SnowP :=
  { p with
    x := randomRange (-50) (w + 50) (env.rand k)
    y := if atTop then randomRange (-50) (-10) (env.rand (k + 1))
         else randomRange 0 h (env.rand (k + 1))
    depth := env.rand (k + 2)
    scale := lerp 1 4 (env.rand (k + 2))
    vy := lerp 30 100 (env.rand (k + 2))
    vx := 0
    alpha := lerp (3 / 10) (9 / 10) (env.rand (k + 2))
    wobbleSpeed := randomRange 1 3 (env.rand (k + 3))
    wobbleOffset := randomRange 0 env.twoPi (env.rand (k + 4))
    wobbleAmount := randomRange 10 30 (env.rand (k + 5))
    noiseOffset := randomRange 0 10000 (env.rand (k + 6))
    rotationSpeed := if env.rand (k + 2) > 7 / 10 then randomRange (-2) 2 (env.rand (k + 7))
                     else 0
    visible := true }

/-- SnowSystem.spawnParticle: acquire from the pool with the initializer
above.  Returns the entity, the pool state, and the advanced random
cursor (the rotation roll consumes a draw only for deep flakes). -/
def snowSpawn (env : SnowEnv) (w h : ℚ) (atTop : Bool)
    (pool : PoolState SnowP) (k : Nat) : Nat × PoolState SnowP × Nat :=
  let out := acquire pool (some (snowSpawnInit env w h atTop k))
  (out.1, out.2, if env.rand (k + 2) > 7 / 10 then k + 8 else k + 7)

/-- The per-particle motion step of SnowSystem.update: flow-field drift,
depth-scaled wind, wobble, position integration and rotation. -/
def moveSnow (env : SnowEnv) (wind delta elapsed : ℚ) (p : SnowP) : SnowP :=
  let flow := flowField env.noise (p.x + p.noiseOffset) p.y elapsed (3 / 1000) (1 / 5)
  let windEffect := wind * 50 * p.depth
  let vx := flow.1 * 20 * p.depth + windEffect
  let wobble := env.sinQ (elapsed * p.wobbleSpeed + p.wobbleOffset) * p.wobbleAmount * p.depth
  { p with
    vx := vx
    x := p.x + (vx + wobble) * delta
    y := p.y + p.vy * delta
    rotation := if p.rotationSpeed ≠ 0 then p.rotation + p.rotationSpeed * delta
                else p.rotation }

/-- The reverse-iteration recycle loop of SnowSystem.update.  The input
list is the particle array reversed (the code walks indices downward);
the result is the kept particles in original array order, the spawned
replacements in push order, the pool, and the random cursor. -/
def snowLoop (env : SnowEnv) (w h wind delta elapsed : ℚ) :
    List Nat → PoolState SnowP → Nat → List Nat × List Nat × PoolState SnowP × Nat
  | [], pool, k => ([], [], pool, k)
  | pid :: rest, pool, k =>
      let p := moveSnow env wind delta elapsed (pool.vals pid)
      let pool1 := setVal pool pid p
      if p.y > h + 20 ∨ p.x < -60 ∨ p.x > w + 60 then
        let pool2 := release (setVal pool1 pid { p with visible := false }) pid none
        let sp := snowSpawn env w h true pool2 k
        let out := snowLoop env w h wind delta elapsed rest sp.2.1 sp.2.2
        (out.1, sp.1 :: out.2.1, out.2.2.1, out.2.2.2)
      else
        let out := snowLoop env w h wind delta elapsed rest pool1 k
        (out.1 ++ [pid], out.2.1, out.2.2.1, out.2.2.2)

/-- SnowSystem.update: advance the wind timer (re-rolling the target when
it passes 3 seconds), blend the wind direction, then run the recycle loop
over the particle array; recycled slots respawn at the top edge and the
replacements are pushed onto the end of the array. -/
def snowUpdate (env : SnowEnv) (w h delta elapsed : ℚ) (s : SnowSt) : SnowSt :=
  let timer := s.windChangeTimer + delta
  let wt : ℚ × ℚ × Nat :=
    if timer > 3 then
      (randomRange (-1) 1 (env.rand s.randIdx) * env.windStrength, 0, s.randIdx + 1)
    else (s.targetWindDirection, timer, s.randIdx)
  let wind := lerp s.windDirection wt.1 (delta * (1 / 2))
  let out := snowLoop env w h wind delta elapsed s.particles.reverse s.pool wt.2.2
  { particles := out.1 ++ out.2.1
    pool := out.2.2.1
    randIdx := out.2.2.2
    windDirection := wind
    targetWindDirection := wt.1
    windChangeTimer := wt.2.1 }

/-- The initial spawn loop in SnowSystem.onAdd: spawn `count` particles
with `atTop = false`. -/
def snowInitLoop (env : SnowEnv) (w h : ℚ) :
    Nat → PoolState SnowP → Nat → List Nat × PoolState SnowP × Nat
  | 0, pool, k => ([], pool, k)
  | n + 1, pool, k =>
      let sp := snowSpawn env w h false pool k
      let out := snowInitLoop env w h n sp.2.1 sp.2.2
      (sp.1 :: out.1, out.2.1, out.2.2)

/-- SnowSystem.onAdd: build the pool pre-allocated with `particleCount`
snowflakes and spawn `particleCount` particles across the screen. -/
def snowInit (env : SnowEnv) (w h : ℚ) (particleCount : Nat) : SnowSt :=
  let out := snowInitLoop env w h particleCount (mkPool snowDefault particleCount) 0
  { particles := out.1, pool := out.2.1, randIdx := out.2.2
    windDirection := 0, targetWindDirection := 0, windChangeTimer := 0 }

/-- Run SnowSystem.update over a list of frames, each a (delta, elapsed)
pair. -/
def snowRun (env : SnowEnv) (w h : ℚ) : List (ℚ × ℚ) → SnowSt → SnowSt
  | [], s => s
  | f :: fs, s => snowRun env w h fs (snowUpdate env w h f.1 f.2 s)

/-- A sparkle particle, from src/scenes/MagicSparkles.js. -/
structure SparkleP where
  x : ℚ
  y : ℚ
  vx : ℚ
  vy : ℚ
  baseScale : ℚ
  scale : ℚ
  alpha : ℚ
  tint : Nat
  twinkleSpeed : ℚ
  twinkleOffset : ℚ
  pulseSpeed : ℚ
  pulseOffset : ℚ
  lifetime : ℚ
  age : ℚ
  noiseOffset : ℚ
  rotationSpeed : ℚ
  rotation : ℚ
  visible : Bool

/-- A factory-fresh sparkle (`createSparkle`). -/
def sparkleDefault : SparkleP :=
  { x := 0, y := 0, vx := 0, vy := 0, baseScale := 1, scale := 1, alpha := 1
    tint := 0xFFFFFF, twinkleSpeed := 0, twinkleOffset := 0, pulseSpeed := 0
    pulseOffset := 0, lifetime := 0, age := 0, noiseOffset := 0
    rotationSpeed := 0, rotation := 0, visible := true }

/-- The ambient platform functions MagicSparkles calls, plus its color
palette option. -/
structure SparkleEnv where
  noise : Noise
  sinQ : ℚ → ℚ
  rand : Nat → ℚ
  twoPi : ℚ
  colors : List Nat

/-- Mutable state of a MagicSparkles system. -/
structure SparkleSt where
  particles : List Nat
  pool : PoolState SparkleP
  randIdx : Nat

/-- MagicSparkles.spawnParticle: acquire with the initializer that rolls
position, size, tint (a uniform `randomPick` over the palette), drift,
twinkle, pulse, lifetime, age, noise offset and rotation speed. -/
def sparkleSpawn (env : SparkleEnv) (w h : ℚ)
    (pool : PoolState SparkleP) (k : Nat) : Nat × PoolState SparkleP × Nat :=
  let size := randomRange 2 6 (env.rand (k + 2))
  let lifetime := randomRange 5 15 (env.rand (k + 10))
  let init : SparkleP → SparkleP := fun p =>
    { p with
      x := randomRange 0 w (env.rand k)
      y := randomRange 0 (h * (8 / 10)) (env.rand (k + 1))
      scale := size
      baseScale := size
      tint := (randomPick env.colors none (env.rand (k + 3))).getD p.tint
      vx := randomRange (-5) 5 (env.rand (k + 4))
      vy := randomRange (-3) 3 (env.rand (k + 5))
      twinkleSpeed := randomRange 2 5 (env.rand (k + 6))
      twinkleOffset := randomRange 0 env.twoPi (env.rand (k + 7))
      pulseSpeed := randomRange 1 3 (env.rand (k + 8))
      pulseOffset := randomRange 0 env.twoPi (env.rand (k + 9))
      lifetime := lifetime
      age := randomRange 0 lifetime (env.rand (k + 11))
      noiseOffset := randomRange 0 10000 (env.rand (k + 12))
      rotationSpeed := randomRange (-1) 1 (env.rand (k + 13))
      alpha := 8 / 10
      visible := true }
  let out := acquire pool (some init)
  (out.1, out.2, k + 14)

/-- The per-particle step of MagicSparkles.update: age, fade, twinkle,
pulse, flow drift, motion integration and rotation. -/
def moveSparkle (env : SparkleEnv) (delta elapsed : ℚ) (p : SparkleP) : SparkleP :=
  let age := p.age + delta
  let lifeFade := if age < 1 then age
                  else if age > p.lifetime - 1 then p.lifetime - age
                  else 1
  let twinkle := env.sinQ (elapsed * p.twinkleSpeed + p.twinkleOffset)
  let pulse := env.sinQ (elapsed * p.pulseSpeed + p.pulseOffset)
  let flow := flowField env.noise (p.x + p.noiseOffset) p.y (elapsed * (1 / 2)) (5 / 1000) (1 / 10)
  { p with
    age := age
    alpha := (2 / 5 + twinkle * (2 / 5)) * lifeFade
    scale := p.baseScale * (4 / 5 + pulse * (3 / 10))
    x := p.x + (p.vx + flow.1 * 15) * delta
    y := p.y + (p.vy + flow.2 * 10) * delta
    rotation := p.rotation + p.rotationSpeed * delta }

/-- The reverse-iteration recycle loop of MagicSparkles.update; a particle
is recycled when its age passes its lifetime or it drifts 20 past any
screen edge, and each recycle spawns one replacement. -/
def sparkleLoop (env : SparkleEnv) (w h delta elapsed : ℚ) :
    List Nat → PoolState SparkleP → Nat → List Nat × List Nat × PoolState SparkleP × Nat
  | [], pool, k => ([], [], pool, k)
  | pid :: rest, pool, k =>
      let p := moveSparkle env delta elapsed (pool.vals pid)
      let pool1 := setVal pool pid p
      if p.age > p.lifetime ∨ p.x < -20 ∨ p.x > w + 20 ∨ p.y < -20 ∨ p.y > h + 20 then
        let pool2 := release (setVal pool1 pid { p with visible := false }) pid none
        let sp := sparkleSpawn env w h pool2 k
        let out := sparkleLoop env w h delta elapsed rest sp.2.1 sp.2.2
        (out.1, sp.1 :: out.2.1, out.2.2.1, out.2.2.2)
      else
        let out := sparkleLoop env w h delta elapsed rest pool1 k
        (out.1 ++ [pid], out.2.1, out.2.2.1, out.2.2.2)

/-- MagicSparkles.update. -/
def sparkleUpdate (env : SparkleEnv) (w h delta elapsed : ℚ) (s : SparkleSt) : SparkleSt :=
  let out := sparkleLoop env w h delta elapsed s.particles.reverse s.pool s.randIdx
  { particles := out.1 ++ out.2.1
    pool := out.2.2.1
    randIdx := out.2.2.2 }

/-- The initial spawn loop in MagicSparkles.onAdd. -/
def sparkleInitLoop (env : SparkleEnv) (w h : ℚ) :
    Nat → PoolState SparkleP → Nat → List Nat × PoolState SparkleP × Nat
  | 0, pool, k => ([], pool, k)
  | n + 1, pool, k =>
      let sp := sparkleSpawn env w h pool k
      let out := sparkleInitLoop env w h n sp.2.1 sp.2.2
      (sp.1 :: out.1, out.2.1, out.2.2)

/-- MagicSparkles.onAdd. -/
def sparkleInit (env : SparkleEnv) (w h : ℚ) (particleCount : Nat) : SparkleSt :=
  let out := sparkleInitLoop env w h particleCount (mkPool sparkleDefault particleCount) 0
  { particles := out.1, pool := out.2.1, randIdx := out.2.2 }

/-- Run MagicSparkles.update over a list of frames. -/
def sparkleRun (env : SparkleEnv) (w h : ℚ) : List (ℚ × ℚ) → SparkleSt → SparkleSt
  | [], s => s
  | f :: fs, s => sparkleRun env w h fs (sparkleUpdate env w h f.1 f.2 s)

/-! Helper lemmas about the pool operations. -/

/-- Every list is either empty or a list plus a recorded last element. -/
lemma list_concat_cases {α : Type} (l : List α) :
    l = [] ∨ ∃ l2 a, l = l2 ++ [a] ∧ l.getLast? = some a ∧ l.dropLast = l2 := by
  induction l using List.reverseRecOn with
  | nil => exact Or.inl rfl
  | append_singleton l2 a _ =>
      exact Or.inr ⟨l2, a, rfl, by simp, by simp⟩

/-- Unfolding `acquire` when the free list is nonempty: the last free
entity is popped. -/
lemma acquire_concat {α : Type} (s : PoolState α) (l : List Nat) (a : Nat)
    (hl : s.pool = l ++ [a]) (f : Option (α → α)) :
    acquire s f = (a, { s with
      pool := l
      active := insert a s.active
      vals := Function.update s.vals a (applyOpt f (s.vals a)) }) := by
  unfold acquire
  rw [hl]
  simp [List.getLast?_concat, List.dropLast_concat]

/-- Unfolding `acquire` when the free list is empty: the factory runs. -/
lemma acquire_empty {α : Type} (s : PoolState α)
    (hl : s.pool = []) (f : Option (α → α)) :
    acquire s f = (s.nextId, { s with
      nextId := s.nextId + 1
      active := insert s.nextId s.active
      vals := Function.update s.vals s.nextId (applyOpt f (s.vals s.nextId)) }) := by
  unfold acquire
  rw [hl]
  rfl

/-- Unfolding `release` on an active entity. -/
lemma release_mem {α : Type} (s : PoolState α) (obj : Nat) (f : Option (α → α))
    (h : obj ∈ s.active) :
    release s obj f = { s with
      active := s.active.erase obj
      vals := Function.update s.vals obj (applyOpt f (s.vals obj))
      pool := s.pool ++ [obj] } := by
  unfold release
  rw [if_pos h]

/-- Unfolding `release` on a non-active entity: a no-op. -/
lemma release_not_mem {α : Type} (s : PoolState α) (obj : Nat) (f : Option (α → α))
    (h : obj ∉ s.active) :
    release s obj f = s := by
  unfold release
  rw [if_neg h]

/-- The invariant holds at construction. -/
lemma poolInv_mk {α : Type} (d : α) (n : Nat) : PoolInv (mkPool d n) := by
  refine ⟨List.nodup_range _, ?_, ?_⟩
  · intro x hx
    simp [mkPool] at hx
  · intro x
    simp [mkPool, List.mem_range]

/-- `acquire` preserves the invariant, and the entity it hands out was not
active before the call. -/
lemma poolInv_acquire {α : Type} (s : PoolState α) (f : Option (α → α))
    (h : PoolInv s) :
    PoolInv (acquire s f).2 ∧ (acquire s f).1 ∉ s.active := by
  obtain ⟨hnd, hdisj, hcomp⟩ := h
  rcases list_concat_cases s.pool with hnil | ⟨l2, a, heq, -, -⟩
  · rw [acquire_empty s hnil f]
    have hfresh : s.nextId ∉ s.active := by
      intro hmem
      exact absurd ((hcomp s.nextId).mpr (Or.inr hmem)) (lt_irrefl _)
    refine ⟨⟨?_, ?_, ?_⟩, hfresh⟩
    · exact hnd
    · intro x hx
      rw [hnil] at hx
      simp at hx
    · intro x
      simp only [hnil, List.not_mem_nil, false_or, Finset.mem_insert]
      rw [Nat.lt_succ_iff_lt_or_eq]
      constructor
      · rintro (hlt | hEq)
        · exact Or.inr ((hcomp x).mp hlt |>.resolve_left (by simp [hnil]))
        · exact Or.inl hEq
      · rintro (hEq | hmem)
        · exact Or.inr hEq
        · exact Or.inl ((hcomp x).mpr (Or.inr hmem))
  · rw [acquire_concat s l2 a heq f]
    have hmem_a : a ∈ s.pool := by
      rw [heq]; simp
    have hnot_active : a ∉ s.active := fun hmem => hdisj a ⟨hmem_a, hmem⟩
    have hnd2 : (l2 ++ [a]).Nodup := heq ▸ hnd
    have ha_l2 : a ∉ l2 := by
      intro hmem
      rcases List.nodup_append.mp hnd2 with ⟨-, -, hdis⟩
      exact hdis hmem (by simp)
    refine ⟨⟨(List.nodup_append.mp hnd2).1, ?_, ?_⟩, hnot_active⟩
    · intro x hx
      obtain ⟨hx1, hx2⟩ := hx
      have hx_pool : x ∈ s.pool := by rw [heq]; simp [hx1]
      rcases Finset.mem_insert.mp hx2 with hEq | hmem
      · exact ha_l2 (hEq ▸ hx1)
      · exact hdisj x ⟨hx_pool, hmem⟩
    · intro x
      rw [hcomp x, heq]
      simp only [List.mem_append, List.mem_singleton, Finset.mem_insert]
      tauto

/-- `release` preserves the invariant. -/
lemma poolInv_release {α : Type} (s : PoolState α) (obj : Nat) (f : Option (α → α))
    (h : PoolInv s) : PoolInv (release s obj f) := by
  obtain ⟨hnd, hdisj, hcomp⟩ := h
  by_cases hmem : obj ∈ s.active
  · rw [release_mem s obj f hmem]
    have hobj_pool : obj ∉ s.pool := fun hp => hdisj obj ⟨hp, hmem⟩
    refine ⟨?_, ?_, ?_⟩
    · rw [List.nodup_append]
      exact ⟨hnd, List.nodup_singleton obj, fun x hx hx2 => by
        simp at hx2
        exact hobj_pool (hx2 ▸ hx)⟩
    · intro x hx
      obtain ⟨hx1, hx2⟩ := hx
      rcases Finset.mem_erase.mp hx2 with ⟨hne, hact⟩
      rcases List.mem_append.mp hx1 with hp | hsing
      · exact hdisj x ⟨hp, hact⟩
      · simp at hsing
        exact hne hsing
    · intro x
      rw [hcomp x]
      simp only [List.mem_append, List.mem_singleton, Finset.mem_erase]
      constructor
      · rintro (hp | hact)
        · exact Or.inl (Or.inl hp)
        · by_cases hEq : x = obj
          · exact Or.inl (Or.inr hEq)
          · exact Or.inr ⟨hEq, hact⟩
      · rintro ((hp | hEq) | ⟨-, hact⟩)
        · exact Or.inl hp
        · exact Or.inr (hEq ▸ hmem)
        · exact Or.inr hact
  · rw [release_not_mem s obj f hmem]
    exact ⟨hnd, hdisj, hcomp⟩

/-- `releaseAll` preserves the invariant. -/
lemma poolInv_releaseAll {α : Type} (s : PoolState α) (f : Option (α → α))
    (h : PoolInv s) : PoolInv (releaseAll s f) := by
  obtain ⟨hnd, hdisj, hcomp⟩ := h
  refine ⟨?_, ?_, ?_⟩
  · rw [releaseAll, List.nodup_append]
    refine ⟨hnd, Finset.sort_nodup _ _, fun x hx hx2 => ?_⟩
    rw [Finset.mem_sort] at hx2
    exact hdisj x ⟨hx, hx2⟩
  · intro x hx
    obtain ⟨-, hx2⟩ := hx
    simp [releaseAll] at hx2
  · intro x
    rw [releaseAll]
    simp only [List.mem_append, Finset.mem_sort, Finset.not_mem_empty, or_false]
    rw [hcomp x]

/-- `expand` preserves the invariant. -/
lemma poolInv_expand {α : Type} (s : PoolState α) (count : Nat)
    (h : PoolInv s) : PoolInv (expand s count) := by
  obtain ⟨hnd, hdisj, hcomp⟩ := h
  have hlt : ∀ x ∈ s.pool, x < s.nextId := fun x hx => (hcomp x).mpr (Or.inl hx)
  have hlt2 : ∀ x ∈ s.active, x < s.nextId := fun x hx => (hcomp x).mpr (Or.inr hx)
  refine ⟨?_, ?_, ?_⟩
  · rw [expand, List.nodup_append]
    refine ⟨hnd, ?_, ?_⟩
    · exact (List.nodup_range _).map (fun i j hij => by omega)
    · intro x hx hx2
      rcases List.mem_map.mp hx2 with ⟨i, -, hEq⟩
      have := hlt x hx
      omega
  · intro x hx
    obtain ⟨hx1, hx2⟩ := hx
    rcases List.mem_append.mp hx1 with hp | hnew
    · exact hdisj x ⟨hp, hx2⟩
    · rcases List.mem_map.mp hnew with ⟨i, -, hEq⟩
      have := hlt2 x hx2
      omega
  · intro x
    simp only [expand, List.mem_append, List.mem_map, List.mem_range]
    constructor
    · intro hlt3
      by_cases hx : x < s.nextId
      · rcases (hcomp x).mp hx with hp | hact
        · exact Or.inl (Or.inl hp)
        · exact Or.inr hact
      · exact Or.inl (Or.inr ⟨x - s.nextId, by omega, by omega⟩)
    · rintro ((hp | ⟨i, hi, hEq⟩) | hact)
      · have := hlt x hp; omega
      · omega
      · have := hlt2 x hact; omega

/-- Every state reachable from construction satisfies the invariant. -/
lemma poolInv_runOps {α : Type} (d : α) (n : Nat) (ops : List (PoolOp α)) :
    PoolInv (runOps (mkPool d n) ops) := by
  suffices h : ∀ (ops : List (PoolOp α)) (s : PoolState α), PoolInv s → PoolInv (runOps s ops) from
    h ops _ (poolInv_mk d n)
  intro ops
  induction ops with
  | nil => intro s hs; exact hs
  | cons op rest ih =>
      intro s hs
      refine ih (poolStep s op) ?_
      cases op with
      | acq f => exact (poolInv_acquire s f hs).1
      | rel e f => exact poolInv_release s e f hs
      | relAll f => exact poolInv_releaseAll s f hs
      | exp c => exact poolInv_expand s c hs

/-- `release` never changes the total. -/
lemma stats_release_total {α : Type} (s : PoolState α) (e : Nat) (f : Option (α → α)) :
    (stats (release s e f)).total = (stats s).total := by
  by_cases hmem : e ∈ s.active
  · rw [release_mem s e f hmem]
    have hpos : 0 < s.active.card := Finset.card_pos.mpr ⟨e, hmem⟩
    simp only [stats, List.length_append, List.length_singleton,
      Finset.card_erase_of_mem hmem]
    omega
  · rw [release_not_mem s e f hmem]

/-- `releaseAll` never changes the total. -/
lemma stats_releaseAll_total {α : Type} (s : PoolState α) (f : Option (α → α)) :
    (stats (releaseAll s f)).total = (stats s).total := by
  simp only [releaseAll, stats, List.length_append, Finset.card_empty,
    Finset.length_sort]
  omega

/-- `acquire` on an exhausted free list grows the total by exactly one. -/
lemma stats_acquire_empty {α : Type} (s : PoolState α) (f : Option (α → α))
    (h : PoolInv s) (hnil : s.pool = []) :
    (stats (acquire s f).2).total = (stats s).total + 1 := by
  rw [acquire_empty s hnil f]
  have hfresh : s.nextId ∉ s.active := by
    intro hmem
    exact absurd ((h.2.2 s.nextId).mpr (Or.inr hmem)) (lt_irrefl _)
  simp only [stats, Finset.card_insert_of_not_mem hfresh]
  omega

/-- `acquire` on a nonempty free list leaves the total unchanged. -/
lemma stats_acquire_nonempty {α : Type} (s : PoolState α) (f : Option (α → α))
    (h : PoolInv s) (hne : s.pool ≠ []) :
    (stats (acquire s f).2).total = (stats s).total := by
  rcases list_concat_cases s.pool with hnil | ⟨l2, a, heq, -, -⟩
  · exact absurd hnil hne
  · rw [acquire_concat s l2 a heq f]
    have ha_act : a ∉ s.active := fun hmem =>
      h.2.1 a ⟨by rw [heq]; simp, hmem⟩
    simp only [stats, Finset.card_insert_of_not_mem ha_act, heq,
      List.length_append, List.length_singleton]
    omega

/-- `expand` adds exactly `count` to both the total and the free count. -/
lemma stats_expand {α : Type} (s : PoolState α) (count : Nat) :
    (stats (expand s count)).total = (stats s).total + count
    ∧ (stats (expand s count)).available = (stats s).available + count := by
  constructor <;>
  · simp only [expand, stats, List.length_append, List.length_map, List.length_range]
    try omega

/-- Claim C1: pool conservation.  In every state reachable by acquire,
release, releaseAll and expand from construction, available plus active
equals total; release and releaseAll never change the total; an acquire
from an empty free list grows the total by exactly one, an acquire from a
nonempty free list leaves it unchanged; and expand adds exactly its count
to both the total and the free count. -/
theorem pool_conservation {α : Type} (d : α) (n : Nat) (ops : List (PoolOp α)) :
    (stats (runOps (mkPool d n) ops)).available + (stats (runOps (mkPool d n) ops)).active
        = (stats (runOps (mkPool d n) ops)).total
    ∧ (∀ e f, (stats (release (runOps (mkPool d n) ops) e f)).total
          = (stats (runOps (mkPool d n) ops)).total)
    ∧ (∀ f, (stats (releaseAll (runOps (mkPool d n) ops) f)).total
          = (stats (runOps (mkPool d n) ops)).total)
    ∧ (∀ f, (runOps (mkPool d n) ops).pool = [] →
          (stats (acquire (runOps (mkPool d n) ops) f).2).total
            = (stats (runOps (mkPool d n) ops)).total + 1)
    ∧ (∀ f, (runOps (mkPool d n) ops).pool ≠ [] →
          (stats (acquire (runOps (mkPool d n) ops) f).2).total
            = (stats (runOps (mkPool d n) ops)).total)
    ∧ (∀ count, (stats (expand (runOps (mkPool d n) ops) count)).total
            = (stats (runOps (mkPool d n) ops)).total + count
          ∧ (stats (expand (runOps (mkPool d n) ops) count)).available
            = (stats (runOps (mkPool d n) ops)).available + count) := by
  have hinv := poolInv_runOps d n ops
  exact ⟨rfl, fun e f => stats_release_total _ e f,
    fun f => stats_releaseAll_total _ f,
    fun f hnil => stats_acquire_empty _ f hinv hnil,
    fun f hne => stats_acquire_nonempty _ f hinv hne,
    fun count => stats_expand _ count⟩

/-- Witness for C1: the release and empty-acquire cases evaluated on a
concrete pool of initial size zero. -/
theorem pool_conservation_witness :
    (stats (release (runOps (mkPool (0 : Nat) 0) []) 5 none)).total
        = (stats (runOps (mkPool (0 : Nat) 0) [])).total
    ∧ (stats (acquire (runOps (mkPool (0 : Nat) 0) []) none).2).total
        = (stats (runOps (mkPool (0 : Nat) 0) [])).total + 1 :=
  ⟨(pool_conservation 0 0 []).2.1 5 none,
   (pool_conservation 0 0 []).2.2.2.1 none rfl⟩

/-- Claim C4: in every reachable pool state the free list has no
duplicates, no entity is simultaneously free and active, every created
entity is in exactly one of the two collections, and the entity returned
by an acquire is not held by any other currently-active handle. -/
theorem pool_exactly_one_collection {α : Type} (d : α) (n : Nat) (ops : List (PoolOp α)) :
    (runOps (mkPool d n) ops).pool.Nodup
    ∧ (∀ x, ¬(x ∈ (runOps (mkPool d n) ops).pool ∧ x ∈ (runOps (mkPool d n) ops).active))
    ∧ (∀ x, x < (runOps (mkPool d n) ops).nextId ↔
        (x ∈ (runOps (mkPool d n) ops).pool ∨ x ∈ (runOps (mkPool d n) ops).active))
    ∧ (∀ f, (acquire (runOps (mkPool d n) ops) f).1 ∉ (runOps (mkPool d n) ops).active) := by
  have hinv := poolInv_runOps d n ops
  exact ⟨hinv.1, hinv.2.1, hinv.2.2, fun f => (poolInv_acquire _ f hinv).2⟩

/-- Witness for C4: acquire exclusivity evaluated on a concrete pool. -/
theorem pool_exactly_one_collection_witness :
    (acquire (runOps (mkPool (0 : Nat) 2) []) none).1 ∉ (runOps (mkPool (0 : Nat) 2) []).active :=
  (pool_exactly_one_collection 0 2 []).2.2.2 none

/-- Claim C5: a pool constructed with initialSize 2 serves three acquires
without failing; afterwards stats reports available 0, active 3, total 3:
the pool transparently grew by one. -/
theorem pool_growth_scenario :
    stats (mkPool (0 : Nat) 2) = ⟨2, 0, 2⟩
    ∧ stats (acquire (acquire (acquire (mkPool (0 : Nat) 2) none).2 none).2 none).2
        = ⟨0, 3, 3⟩ := by
  decide

/-- Claim C6: releasing an entity that is not currently active (for
example one that was already released) is a no-op: the whole pool state,
hence every field of stats, is unchanged and the reset is not applied. -/
theorem release_noop {α : Type} (s : PoolState α) (e : Nat) (reset : Option (α → α))
    (h : e ∉ s.active) :
    release s e reset = s ∧ stats (release s e reset) = stats s := by
  have heq := release_not_mem s e reset h
  exact ⟨heq, by rw [heq]⟩

/-- Witness for C6: double release of entity 0 on a concrete pool. -/
theorem release_noop_witness :
    0 ∉ (release (acquire (mkPool (0 : Nat) 1) none).2 0 none).active
    ∧ release (release (acquire (mkPool (0 : Nat) 1) none).2 0 none) 0 none
        = release (acquire (mkPool (0 : Nat) 1) none).2 0 none
    ∧ stats (release (release (acquire (mkPool (0 : Nat) 1) none).2 0 none) 0 none)
        = stats (release (acquire (mkPool (0 : Nat) 1) none).2 0 none) :=
  ⟨by decide, (release_noop _ 0 none (by decide)).1, (release_noop _ 0 none (by decide)).2⟩

/-- Claim C9: same-seed determinism of the flow field.  Two Noise
instances constructed with the same truthy seed, but with different
ambient Math.random streams available to them, produce identical
flowField output on identical inputs. -/
theorem flowField_same_seed_deterministic (lib : NoiseLib)
    (entropy1 entropy2 : Nat → ℚ) (seed : ℚ) (hseed : seed ≠ 0)
    (x y time scale timeScale : ℚ) :
    flowField (mkNoise lib entropy1 seed) x y time scale timeScale
      = flowField (mkNoise lib entropy2 seed) x y time scale timeScale := by
  simp only [mkNoise, if_pos hseed]

/-- Witness for C9: evaluated with the seed 7 and two different entropy
streams over a constant noise library. -/
theorem flowField_same_seed_deterministic_witness :
    flowField (mkNoise ⟨fun _ _ _ => 0, fun _ _ _ _ => 0, fun _ _ _ _ _ => 0⟩
        (fun _ => 0) 7) 1 2 3 (1 / 100) (1 / 10)
      = flowField (mkNoise ⟨fun _ _ _ => 0, fun _ _ _ _ => 0, fun _ _ _ _ _ => 0⟩
        (fun i => i) 7) 1 2 3 (1 / 100) (1 / 10) :=
  flowField_same_seed_deterministic _ _ _ 7 (by norm_num) 1 2 3 (1 / 100) (1 / 10)

/-- When the draw exceeds the whole accumulated weight (weights all
nonnegative), the cumulative scan falls through. -/
lemma pickScan_none {α : Type} :
    ∀ (items : List α) (ws : List ℚ) (acc r : ℚ),
      ws.length = items.length → (∀ w ∈ ws, 0 ≤ w) → acc + ws.sum < r →
      pickScan (items.zip ws) r acc = none := by
  intro items
  induction items with
  | nil => intro ws acc r _ _ _; simp [pickScan]
  | cons x xs ih =>
      intro ws acc r hlen hnn hsum
      cases ws with
      | nil => simp at hlen
      | cons w ws2 =>
          have hw : 0 ≤ w := hnn w (by simp)
          have hrest : 0 ≤ ws2.sum :=
            List.sum_nonneg fun a ha => hnn a (by simp [ha])
          have hsum2 : w + ws2.sum = (w :: ws2).sum := by simp
          have hno : ¬ r ≤ acc + w := by
            rw [← hsum2] at hsum
            push_neg
            linarith
          simp only [List.zip_cons_cons, pickScan, if_neg hno]
          refine ih ws2 (acc + w) r (by simpa using hlen)
            (fun a ha => hnn a (by simp [ha])) ?_
          rw [← hsum2] at hsum
          linarith

/-- Counterexample for C7: on the warmNight palette (weights 0.7, 0.2,
0.1, summing to 1) a draw of 2 falls past the last cumulative bucket, yet
`pickFromPalette` resolves to the dominant (FIRST) color, not to the
accent, the last item of its color list. -/
theorem pickFromPalette_fallthrough_counterexample :
    pickFromPalette ⟨0x2D2A4A, 0x4A3F6B, 0xE8985E, [7 / 10, 1 / 5, 1 / 10]⟩ 2
        = some 0x2D2A4A
    ∧ pickFromPalette ⟨0x2D2A4A, 0x4A3F6B, 0xE8985E, [7 / 10, 1 / 5, 1 / 10]⟩ 2
        ≠ some 0xE8985E := by
  have h : pickFromPalette ⟨0x2D2A4A, 0x4A3F6B, 0xE8985E, [7 / 10, 1 / 5, 1 / 10]⟩ 2
      = some 0x2D2A4A := by
    norm_num [pickFromPalette, pickScan]
  exact ⟨h, by rw [h]; decide⟩

/-- Claim C7 (amended): with parallel nonnegative weights and a draw
exceeding the accumulated sum of all weights, `randomPick` resolves to
the LAST item of the list, while `pickFromPalette` resolves to the FIRST
color of its list (the dominant), not the last. -/
theorem weighted_pick_fallthrough :
    (∀ (α : Type) (items : List α) (ws : List ℚ) (r : ℚ),
        ws.length = items.length → (∀ w ∈ ws, 0 ≤ w) → ws.sum < r →
        randomPick items (some ws) r = items.getLast?)
    ∧ (∀ (p : Palette) (r : ℚ),
        p.weights.length = 3 → (∀ w ∈ p.weights, 0 ≤ w) → p.weights.sum < r →
        pickFromPalette p r = some p.dominant) := by
  constructor
  · intro α items ws r hlen hnn hsum
    have hnone := pickScan_none items ws 0 r hlen hnn (by linarith)
    simp only [randomPick, hnone]
  · intro p r hlen hnn hsum
    have hnone := pickScan_none [p.dominant, p.secondary, p.accent] p.weights 0 r
      (by simpa using hlen) hnn (by linarith)
    simp only [pickFromPalette, hnone, List.head?_cons]

/-- Witness for C7: the two fallthrough behaviours evaluated on concrete
lists with weights summing to 1 and a draw of 2. -/
theorem weighted_pick_fallthrough_witness :
    randomPick [(10 : Nat), 20, 30] (some [7 / 10, 1 / 5, 1 / 10]) 2
        = ([(10 : Nat), 20, 30]).getLast?
    ∧ pickFromPalette ⟨1, 2, 3, [7 / 10, 1 / 5, 1 / 10]⟩ 2 = some 1 :=
  ⟨weighted_pick_fallthrough.1 Nat [10, 20, 30] [7 / 10, 1 / 5, 1 / 10] 2
      (by decide) (by norm_num) (by norm_num),
   weighted_pick_fallthrough.2 ⟨1, 2, 3, [7 / 10, 1 / 5, 1 / 10]⟩ 2
      (by decide) (by norm_num) (by norm_num)⟩

/-- Unfolding the octave loop one layer. -/
lemma fbmLoop_succ (sample : ℚ → ℚ) (lac pers : ℚ) (n : Nat) (amp freq : ℚ) :
    fbmLoop sample lac pers (n + 1) amp freq
      = (amp * sample freq + (fbmLoop sample lac pers n (amp * pers) (freq * lac)).1,
         amp + (fbmLoop sample lac pers n (amp * pers) (freq * lac)).2) := rfl

/-- The accumulated value is bounded by the accumulated amplitude, the
accumulated amplitude is nonnegative, and with at least one octave it is
at least the starting amplitude. -/
lemma fbmLoop_abs_le (sample : ℚ → ℚ) (lac pers : ℚ)
    (hs : ∀ q, |sample q| ≤ 1) (hp : 0 ≤ pers) :
    ∀ (n : Nat) (amp freq : ℚ), 0 ≤ amp →
      0 ≤ (fbmLoop sample lac pers n amp freq).2
      ∧ |(fbmLoop sample lac pers n amp freq).1| ≤ (fbmLoop sample lac pers n amp freq).2
      ∧ (n ≠ 0 → amp ≤ (fbmLoop sample lac pers n amp freq).2) := by
  intro n
  induction n with
  | zero =>
      intro amp freq _
      simp [fbmLoop]
  | succ m ih =>
      intro amp freq ha
      obtain ⟨h1, h2, -⟩ := ih (amp * pers) (freq * lac) (mul_nonneg ha hp)
      rw [fbmLoop_succ]
      refine ⟨by simp; linarith, ?_, fun _ => by simp; linarith⟩
      calc |amp * sample freq + (fbmLoop sample lac pers m (amp * pers) (freq * lac)).1|
          ≤ |amp * sample freq| + |(fbmLoop sample lac pers m (amp * pers) (freq * lac)).1| :=
            abs_add _ _
        _ ≤ amp * 1 + (fbmLoop sample lac pers m (amp * pers) (freq * lac)).2 := by
            rw [abs_mul, abs_of_nonneg ha]
            exact add_le_add (mul_le_mul_of_nonneg_left (hs freq) ha) h2
        _ = (amp * sample freq + (fbmLoop sample lac pers m (amp * pers) (freq * lac)).1,
              amp + (fbmLoop sample lac pers m (amp * pers) (freq * lac)).2).2 := by
            simp

/-- With bounded samples, at least one octave and nonnegative persistence
the normalized fractal sum lies in the unit interval. -/
lemma fbm_div_bounded (sample : ℚ → ℚ) (lac pers scale : ℚ) (octaves : Nat)
    (hs : ∀ q, |sample q| ≤ 1) (hp : 0 ≤ pers) (h1 : 1 ≤ octaves) :
    -1 ≤ (fbmLoop sample lac pers octaves 1 scale).1
          / (fbmLoop sample lac pers octaves 1 scale).2
    ∧ (fbmLoop sample lac pers octaves 1 scale).1
          / (fbmLoop sample lac pers octaves 1 scale).2 ≤ 1 := by
  obtain ⟨-, habs, hamp⟩ := fbmLoop_abs_le sample lac pers hs hp octaves 1 scale (by norm_num)
  have hm1 : (1 : ℚ) ≤ (fbmLoop sample lac pers octaves 1 scale).2 := hamp (by omega)
  have hmpos : (0 : ℚ) < (fbmLoop sample lac pers octaves 1 scale).2 := by linarith
  obtain ⟨hlo, hhi⟩ := abs_le.mp habs
  constructor
  · rw [le_div_iff hmpos]
    linarith
  · rw [div_le_one hmpos]
    exact hhi

/-- `fbm3D` with bounded samples, at least one octave and nonnegative
persistence stays in the unit interval (used by the flow field, which
calls it with four octaves and persistence one half). -/
lemma fbm3D_bounded (n : Noise) (x y z : ℚ) (octaves : Nat) (lac pers scale : ℚ)
    (hsample : ∀ a b c, -1 ≤ n.noise3D a b c ∧ n.noise3D a b c ≤ 1)
    (h1 : 1 ≤ octaves) (hpers : 0 ≤ pers) :
    -1 ≤ fbm3D n x y z octaves lac pers scale
    ∧ fbm3D n x y z octaves lac pers scale ≤ 1 := by
  have hs : ∀ q, |(fun frequency =>
      n.noise3D (x * frequency) (y * frequency) (z * frequency)) q| ≤ 1 := by
    intro q
    exact abs_le.mpr ⟨(hsample _ _ _).1, (hsample _ _ _).2⟩
  exact fbm_div_bounded _ lac pers scale octaves hs hpers h1

/-- Both flow field components stay in the unit interval when the raw 3D
samples do. -/
lemma flowField_bounded (n : Noise) (x y time scale timeScale : ℚ)
    (hsample : ∀ a b c, -1 ≤ n.noise3D a b c ∧ n.noise3D a b c ≤ 1) :
    (-1 ≤ (flowField n x y time scale timeScale).1
      ∧ (flowField n x y time scale timeScale).1 ≤ 1)
    ∧ (-1 ≤ (flowField n x y time scale timeScale).2
      ∧ (flowField n x y time scale timeScale).2 ≤ 1) :=
  ⟨fbm3D_bounded n _ _ _ 4 2 (1 / 2) 1 hsample (by omega) (by norm_num),
   fbm3D_bounded n _ _ _ 4 2 (1 / 2) 1 hsample (by omega) (by norm_num)⟩

/-- Claim C2: fractal normalization boundedness.  When every single
octave 2D sample lies in the unit interval, the persistence is
nonnegative and the octave count is between 1 and 8, `fbm2D` stays in
the unit interval whatever the remaining parameters are. -/
theorem fbm2D_bounded (n : Noise) (x y : ℚ) (octaves : Nat)
    (lacunarity persistence scale : ℚ)
    (hsample : ∀ a b, -1 ≤ n.noise2D a b ∧ n.noise2D a b ≤ 1)
    (h1 : 1 ≤ octaves) (h8 : octaves ≤ 8) (hpers : 0 ≤ persistence) :
    -1 ≤ fbm2D n x y octaves lacunarity persistence scale
    ∧ fbm2D n x y octaves lacunarity persistence scale ≤ 1 := by
  have hs : ∀ q, |(fun frequency => n.noise2D (x * frequency) (y * frequency)) q| ≤ 1 := by
    intro q
    exact abs_le.mpr ⟨(hsample _ _).1, (hsample _ _).2⟩
  exact fbm_div_bounded _ lacunarity persistence scale octaves hs hpers h1

/-- Witness for C2: the constant zero sampler with four octaves. -/
theorem fbm2D_bounded_witness :
    -1 ≤ fbm2D ⟨fun _ _ => 0, fun _ _ _ => 0, fun _ _ _ _ => 0⟩ 0 0 4 2 (1 / 2) 1
    ∧ fbm2D ⟨fun _ _ => 0, fun _ _ _ => 0, fun _ _ _ _ => 0⟩ 0 0 4 2 (1 / 2) 1 ≤ 1 :=
  fbm2D_bounded _ 0 0 4 2 (1 / 2) 1 (fun _ _ => by norm_num)
    (by norm_num) (by norm_num) (by norm_num)

/-- Each pass of the snow recycle loop keeps one particle or replaces it
with exactly one spawned particle, so kept plus spawned equals input. -/
lemma snowLoop_length (env : SnowEnv) (w h wind delta elapsed : ℚ) :
    ∀ (l : List Nat) (pool : PoolState SnowP) (k : Nat),
      (snowLoop env w h wind delta elapsed l pool k).1.length
        + (snowLoop env w h wind delta elapsed l pool k).2.1.length = l.length := by
  intro l
  induction l with
  | nil => intro pool k; simp [snowLoop]
  | cons pid rest ih =>
      intro pool k
      simp only [snowLoop]
      split
      · simp only [List.length_cons, ← Nat.add_assoc]
        rw [ih]
      · simp only [List.length_append, List.length_singleton, List.length_cons]
        rw [Nat.add_right_comm, ih]
        simp

/-- One SnowSystem.update never changes the number of live particles. -/
lemma snowUpdate_length (env : SnowEnv) (w h delta elapsed : ℚ) (s : SnowSt) :
    (snowUpdate env w h delta elapsed s).particles.length = s.particles.length := by
  simp only [snowUpdate, List.length_append]
  rw [snowLoop_length]
  exact List.length_reverse _

/-- Any number of SnowSystem.update frames never changes the count. -/
lemma snowRun_length (env : SnowEnv) (w h : ℚ) :
    ∀ (frames : List (ℚ × ℚ)) (s : SnowSt),
      (snowRun env w h frames s).particles.length = s.particles.length := by
  intro frames
  induction frames with
  | nil => intro s; rfl
  | cons f fs ih =>
      intro s
      simp only [snowRun]
      rw [ih, snowUpdate_length]

/-- The initial spawn loop produces exactly the requested count. -/
lemma snowInitLoop_length (env : SnowEnv) (w h : ℚ) :
    ∀ (n : Nat) (pool : PoolState SnowP) (k : Nat),
      (snowInitLoop env w h n pool k).1.length = n := by
  intro n
  induction n with
  | zero => intro pool k; rfl
  | succ m ih =>
      intro pool k
      simp only [snowInitLoop, List.length_cons]
      rw [ih]

/-- SnowSystem.onAdd spawns exactly `particleCount` live particles. -/
lemma snowInit_length (env : SnowEnv) (w h : ℚ) (c : Nat) :
    (snowInit env w h c).particles.length = c := by
  simp only [snowInit]
  exact snowInitLoop_length env w h c _ _

/-- Each pass of the sparkle recycle loop keeps one particle or replaces
it with exactly one spawned particle. -/
lemma sparkleLoop_length (env : SparkleEnv) (w h delta elapsed : ℚ) :
    ∀ (l : List Nat) (pool : PoolState SparkleP) (k : Nat),
      (sparkleLoop env w h delta elapsed l pool k).1.length
        + (sparkleLoop env w h delta elapsed l pool k).2.1.length = l.length := by
  intro l
  induction l with
  | nil => intro pool k; simp [sparkleLoop]
  | cons pid rest ih =>
      intro pool k
      simp only [sparkleLoop]
      split
      · simp only [List.length_cons, ← Nat.add_assoc]
        rw [ih]
      · simp only [List.length_append, List.length_singleton, List.length_cons]
        rw [Nat.add_right_comm, ih]
        simp

/-- One MagicSparkles.update never changes the number of live particles. -/
lemma sparkleUpdate_length (env : SparkleEnv) (w h delta elapsed : ℚ) (s : SparkleSt) :
    (sparkleUpdate env w h delta elapsed s).particles.length = s.particles.length := by
  simp only [sparkleUpdate, List.length_append]
  rw [sparkleLoop_length]
  exact List.length_reverse _

/-- Any number of MagicSparkles.update frames never changes the count. -/
lemma sparkleRun_length (env : SparkleEnv) (w h : ℚ) :
    ∀ (frames : List (ℚ × ℚ)) (s : SparkleSt),
      (sparkleRun env w h frames s).particles.length = s.particles.length := by
  intro frames
  induction frames with
  | nil => intro s; rfl
  | cons f fs ih =>
      intro s
      simp only [sparkleRun]
      rw [ih, sparkleUpdate_length]

/-- The sparkle initial spawn loop produces exactly the requested count. -/
lemma sparkleInitLoop_length (env : SparkleEnv) (w h : ℚ) :
    ∀ (n : Nat) (pool : PoolState SparkleP) (k : Nat),
      (sparkleInitLoop env w h n pool k).1.length = n := by
  intro n
  induction n with
  | zero => intro pool k; rfl
  | succ m ih =>
      intro pool k
      simp only [sparkleInitLoop, List.length_cons]
      rw [ih]

/-- MagicSparkles.onAdd spawns exactly `particleCount` live particles. -/
lemma sparkleInit_length (env : SparkleEnv) (w h : ℚ) (c : Nat) :
    (sparkleInit env w h c).particles.length = c := by
  simp only [sparkleInit]
  exact sparkleInitLoop_length env w h c _ _

/-- Claim C3: particle count invariance.  A SnowSystem and a MagicSparkles
system initialized with particle count C still hold exactly C live
particles after any number of update frames with no external add or
remove: every recycle inside update releases one particle and immediately
spawns exactly one replacement. -/
theorem particle_count_invariant (envS : SnowEnv) (envM : SparkleEnv) (w h : ℚ)
    (c : Nat) (frames : List (ℚ × ℚ)) :
    (snowRun envS w h frames (snowInit envS w h c)).particles.length = c
    ∧ (sparkleRun envM w h frames (sparkleInit envM w h c)).particles.length = c := by
  constructor
  · rw [snowRun_length, snowInit_length]
  · rw [sparkleRun_length, sparkleInit_length]

/-- Math.round of an integer value is that integer. -/
lemma jsRound_natCast (n : Nat) : jsRound (n : ℚ) = (n : ℤ) := by
  unfold jsRound
  rw [add_comm, Int.floor_add_nat]
  norm_num

/-- Shifting a natural left by 16 inside the integers agrees with the
natural shift. -/
lemma int_natCast_shiftLeft16 (m : Nat) :
    ((m : ℤ) <<< (16 : ℤ)) = ((m <<< 16 : Nat) : ℤ) := by
  have h : ((m : ℤ) <<< (16 : ℤ)) = ((Nat.shiftLeft' false m 16 : Nat) : ℤ) := rfl
  rw [h, Nat.shiftLeft'_false]

/-- Shifting a natural left by 8 inside the integers agrees with the
natural shift. -/
lemma int_natCast_shiftLeft8 (m : Nat) :
    ((m : ℤ) <<< (8 : ℤ)) = ((m <<< 8 : Nat) : ℤ) := by
  have h : ((m : ℤ) <<< (8 : ℤ)) = ((Nat.shiftLeft' false m 8 : Nat) : ℤ) := rfl
  rw [h, Nat.shiftLeft'_false]

/-- Bitwise or of two cast naturals inside the integers agrees with the
natural or. -/
lemma int_natCast_lor (a b : Nat) : Int.lor (a : ℤ) (b : ℤ) = ((a ||| b : Nat) : ℤ) := rfl

/-- Reassembling the three extracted channel bytes of a 24-bit color with
shifts and ors gives back the color. -/
lemma nat_byte_recombine {c : Nat} (hc : c < 16777216) :
    ((c >>> 16 &&& 255) <<< 16 ||| (c >>> 8 &&& 255) <<< 8) ||| (c &&& 255) = c := by
  have h255 : (255 : Nat) = 2 ^ 8 - 1 := by norm_num
  rw [h255, Nat.and_pow_two_sub_one_eq_mod, Nat.and_pow_two_sub_one_eq_mod,
    Nat.and_pow_two_sub_one_eq_mod, Nat.shiftRight_eq_div_pow,
    Nat.shiftRight_eq_div_pow, Nat.shiftLeft_eq, Nat.shiftLeft_eq]
  have hr : c / 2 ^ 16 % 2 ^ 8 < 2 ^ 8 := Nat.mod_lt _ (by norm_num)
  have hg : c / 2 ^ 8 % 2 ^ 8 < 2 ^ 8 := Nat.mod_lt _ (by norm_num)
  have hb : c % 2 ^ 8 < 2 ^ 8 := Nat.mod_lt _ (by norm_num)
  have e1 : c / 2 ^ 16 % 2 ^ 8 * 2 ^ 16 ||| c / 2 ^ 8 % 2 ^ 8 * 2 ^ 8
      = c / 2 ^ 16 % 2 ^ 8 * 2 ^ 16 + c / 2 ^ 8 % 2 ^ 8 * 2 ^ 8 := by
    rw [mul_comm (c / 2 ^ 16 % 2 ^ 8)]
    rw [← Nat.mul_add_lt_is_or (show c / 2 ^ 8 % 2 ^ 8 * 2 ^ 8 < 2 ^ 16 by omega)]
  rw [e1]
  have e2 : c / 2 ^ 16 % 2 ^ 8 * 2 ^ 16 + c / 2 ^ 8 % 2 ^ 8 * 2 ^ 8
      = 2 ^ 8 * (c / 2 ^ 16 % 2 ^ 8 * 2 ^ 8 + c / 2 ^ 8 % 2 ^ 8) := by ring
  rw [e2, ← Nat.mul_add_lt_is_or hb]
  omega

/-- Claim C10: color interpolation endpoint identity.  For every pair of
24-bit colors, `lerpColor` at interpolation factor 0 returns exactly the
first color and at factor 1 exactly the second. -/
theorem lerpColor_endpoints (c1 c2 : Nat)
    (h1 : c1 ≤ 0xFFFFFF) (h2 : c2 ≤ 0xFFFFFF) :
    lerpColor c1 c2 0 = (c1 : ℤ) ∧ lerpColor c1 c2 1 = (c2 : ℤ) := by
  have hz : ∀ a b : Nat, jsRound ((a : ℚ) + ((b : ℚ) - (a : ℚ)) * 0) = (a : ℤ) := by
    intro a b
    rw [show ((a : ℚ) + ((b : ℚ) - (a : ℚ)) * 0) = (a : ℚ) by ring, jsRound_natCast]
  have ho : ∀ a b : Nat, jsRound ((a : ℚ) + ((b : ℚ) - (a : ℚ)) * 1) = (b : ℤ) := by
    intro a b
    rw [show ((a : ℚ) + ((b : ℚ) - (a : ℚ)) * 1) = (b : ℚ) by ring, jsRound_natCast]
  constructor
  · simp only [lerpColor, hz]
    rw [int_natCast_shiftLeft16, int_natCast_shiftLeft8, int_natCast_lor, int_natCast_lor]
    exact congrArg _ (nat_byte_recombine (by omega))
  · simp only [lerpColor, ho]
    rw [int_natCast_shiftLeft16, int_natCast_shiftLeft8, int_natCast_lor, int_natCast_lor]
    exact congrArg _ (nat_byte_recombine (by omega))

/-- Witness for C10: evaluated on two concrete colors. -/
theorem lerpColor_endpoints_witness :
    lerpColor 0x123456 0xABCDEF 0 = (0x123456 : ℤ)
    ∧ lerpColor 0x123456 0xABCDEF 1 = (0xABCDEF : ℤ) :=
  lerpColor_endpoints 0x123456 0xABCDEF (by norm_num) (by norm_num)

/-- The x coordinate after one snow motion step. -/
lemma moveSnow_x (env : SnowEnv) (wind delta elapsed : ℚ) (p : SnowP) :
    (moveSnow env wind delta elapsed p).x
      = p.x + ((flowField env.noise (p.x + p.noiseOffset) p.y elapsed (3 / 1000) (1 / 5)).1
            * 20 * p.depth + wind * 50 * p.depth
          + env.sinQ (elapsed * p.wobbleSpeed + p.wobbleOffset) * p.wobbleAmount * p.depth)
          * delta := rfl

/-- The y coordinate the spawn initializer assigns at the top edge. -/
lemma snowSpawnInit_y_top (env : SnowEnv) (w h : ℚ) (k : Nat) (p : SnowP) :
    (snowSpawnInit env w h true k p).y = randomRange (-50) (-10) (env.rand (k + 1)) := rfl

/-- The x coordinate the spawn initializer assigns. -/
lemma snowSpawnInit_x (env : SnowEnv) (w h : ℚ) (atTop : Bool) (k : Nat) (p : SnowP) :
    (snowSpawnInit env w h atTop k p).x = randomRange (-50) (w + 50) (env.rand k) := rfl

/-- A lerp between two values of the unit interval, with a blend factor in
the unit interval, stays in the unit interval. -/
lemma lerp_unit_bound (a b t : ℚ) (ha : -1 ≤ a ∧ a ≤ 1) (hb : -1 ≤ b ∧ b ≤ 1)
    (ht : 0 ≤ t ∧ t ≤ 1) : -1 ≤ lerp a b t ∧ lerp a b t ≤ 1 := by
  have e : lerp a b t = a * (1 - t) + b * t := by unfold lerp; ring
  have h1 : a * (1 - t) ≤ 1 * (1 - t) := mul_le_mul_of_nonneg_right ha.2 (by linarith)
  have h2 : b * t ≤ 1 * t := mul_le_mul_of_nonneg_right hb.2 ht.1
  have h3 : (-1) * (1 - t) ≤ a * (1 - t) := mul_le_mul_of_nonneg_right ha.1 (by linarith)
  have h4 : (-1) * t ≤ b * t := mul_le_mul_of_nonneg_right hb.1 ht.1
  rw [e]
  constructor <;> linarith

/-- The re-rolled wind target stays in the unit interval when the wind
strength option is at most one. -/
lemma wind_target_bound (r ws : ℚ) (hr : 0 ≤ r ∧ r < 1) (hws : 0 ≤ ws ∧ ws ≤ 1) :
    -1 ≤ randomRange (-1) 1 r * ws ∧ randomRange (-1) 1 r * ws ≤ 1 := by
  have hu1 : -1 ≤ randomRange (-1) 1 r := by
    unfold randomRange
    nlinarith [hr.1]
  have hu2 : randomRange (-1) 1 r ≤ 1 := by
    unfold randomRange
    nlinarith [hr.2]
  have h1 : (-1) * ws ≤ randomRange (-1) 1 r * ws := mul_le_mul_of_nonneg_right hu1 hws.1
  have h2 : randomRange (-1) 1 r * ws ≤ 1 * ws := mul_le_mul_of_nonneg_right hu2 hws.1
  constructor <;> nlinarith [hws.1, hws.2]

/-- A snow particle sitting 100 past the right edge is still past the
recycling margin of 60 after one motion step, whenever the frame delta is
at most a third of a second, the wind is bounded, and the particle state
is in the ranges the spawner assigns. -/
lemma moveSnow_exit (env : SnowEnv) (wind delta elapsed w : ℚ) (p : SnowP)
    (hnoise : ∀ a b c, -1 ≤ env.noise.noise3D a b c ∧ env.noise.noise3D a b c ≤ 1)
    (hsin : ∀ a, -1 ≤ env.sinQ a ∧ env.sinQ a ≤ 1)
    (hwind : -1 ≤ wind ∧ wind ≤ 1)
    (hdelta : 0 ≤ delta ∧ delta ≤ 1 / 3)
    (hxp : p.x = w + 100)
    (hdepth : 0 ≤ p.depth ∧ p.depth ≤ 1)
    (hwob : 0 ≤ p.wobbleAmount ∧ p.wobbleAmount ≤ 30) :
    (moveSnow env wind delta elapsed p).x > w + 60 := by
  rw [moveSnow_x, hxp]
  obtain ⟨hf1, hf2⟩ := (flowField_bounded env.noise (w + 100 + p.noiseOffset) p.y
    elapsed (3 / 1000) (1 / 5) hnoise).1
  obtain ⟨hs1, hs2⟩ := hsin (elapsed * p.wobbleSpeed + p.wobbleOffset)
  have hD20 : 0 ≤ 20 * p.depth := by linarith
  have hb1 : -20 ≤ (flowField env.noise (w + 100 + p.noiseOffset) p.y
      elapsed (3 / 1000) (1 / 5)).1 * 20 * p.depth := by
    have h := mul_le_mul_of_nonneg_right hf1 hD20
    have e : (flowField env.noise (w + 100 + p.noiseOffset) p.y
        elapsed (3 / 1000) (1 / 5)).1 * 20 * p.depth
      = (flowField env.noise (w + 100 + p.noiseOffset) p.y
        elapsed (3 / 1000) (1 / 5)).1 * (20 * p.depth) := by ring
    rw [e]
    nlinarith [hdepth.2]
  have hb2 : -50 ≤ wind * 50 * p.depth := by
    have hD50 : 0 ≤ 50 * p.depth := by linarith
    have h := mul_le_mul_of_nonneg_right hwind.1 hD50
    have e : wind * 50 * p.depth = wind * (50 * p.depth) := by ring
    rw [e]
    nlinarith [hdepth.2]
  have hb3 : -30 ≤ env.sinQ (elapsed * p.wobbleSpeed + p.wobbleOffset)
      * p.wobbleAmount * p.depth := by
    have hAD : 0 ≤ p.wobbleAmount * p.depth := mul_nonneg hwob.1 hdepth.1
    have hAD30 : p.wobbleAmount * p.depth ≤ 30 := by nlinarith
    have h := mul_le_mul_of_nonneg_right hs1 hAD
    have e : env.sinQ (elapsed * p.wobbleSpeed + p.wobbleOffset)
        * p.wobbleAmount * p.depth
      = env.sinQ (elapsed * p.wobbleSpeed + p.wobbleOffset)
        * (p.wobbleAmount * p.depth) := by ring
    rw [e]
    nlinarith
  have hsum : -100 ≤ (flowField env.noise (w + 100 + p.noiseOffset) p.y
        elapsed (3 / 1000) (1 / 5)).1 * 20 * p.depth
      + wind * 50 * p.depth
      + env.sinQ (elapsed * p.wobbleSpeed + p.wobbleOffset)
        * p.wobbleAmount * p.depth := by linarith
  have hstep := mul_le_mul_of_nonneg_right hsum hdelta.1
  have hd3 : (-100) * delta ≥ -100 / 3 := by linarith
  linarith

/-- Unfolding the snow recycle loop on one particle whose step moved it
past the right margin: nothing is kept, one replacement is spawned. -/
lemma snowLoop_single (env : SnowEnv) (w h wind delta elapsed : ℚ)
    (pool : PoolState SnowP) (pid k2 : Nat)
    (hexit : (moveSnow env wind delta elapsed (pool.vals pid)).x > w + 60) :
    snowLoop env w h wind delta elapsed [pid] pool k2
      = ([],
         [(snowSpawn env w h true (release (setVal (setVal pool pid
              (moveSnow env wind delta elapsed (pool.vals pid))) pid
              { moveSnow env wind delta elapsed (pool.vals pid) with visible := false })
              pid none) k2).1],
         (snowSpawn env w h true (release (setVal (setVal pool pid
              (moveSnow env wind delta elapsed (pool.vals pid))) pid
              { moveSnow env wind delta elapsed (pool.vals pid) with visible := false })
              pid none) k2).2.1,
         (snowSpawn env w h true (release (setVal (setVal pool pid
              (moveSnow env wind delta elapsed (pool.vals pid))) pid
              { moveSnow env wind delta elapsed (pool.vals pid) with visible := false })
              pid none) k2).2.2) := by
  simp only [snowLoop]
  rw [if_pos (Or.inr (Or.inr hexit))]

/-- Spawning right after releasing an active entity re-acquires that very
entity (the free list is a stack), runs the initializer on it, and leaves
the pool statistics exactly as before the release. -/
lemma snowSpawn_of_recycle (env : SnowEnv) (w h : ℚ) (atTop : Bool)
    (s : PoolState SnowP) (obj k2 : Nat) (f : Option (SnowP → SnowP))
    (hobj : obj ∈ s.active) :
    (snowSpawn env w h atTop (release s obj f) k2).1 = obj
    ∧ ((snowSpawn env w h atTop (release s obj f) k2).2.1).vals obj
        = snowSpawnInit env w h atTop k2 ((release s obj f).vals obj)
    ∧ stats ((snowSpawn env w h atTop (release s obj f) k2).2.1) = stats s := by
  have hl : (release s obj f).pool = s.pool ++ [obj] := by
    rw [release_mem s obj f hobj]
  have hacq := acquire_concat (release s obj f) s.pool obj hl
    (some (snowSpawnInit env w h atTop k2))
  refine ⟨?_, ?_, ?_⟩
  · show (acquire (release s obj f) (some (snowSpawnInit env w h atTop k2))).1 = obj
    rw [hacq]
  · show ((acquire (release s obj f) (some (snowSpawnInit env w h atTop k2))).2).vals obj
      = snowSpawnInit env w h atTop k2 ((release s obj f).vals obj)
    rw [hacq]
    simp [applyOpt]
  · show stats ((acquire (release s obj f) (some (snowSpawnInit env w h atTop k2))).2)
      = stats s
    rw [hacq]
    simp only [stats, release_mem s obj f hobj, Finset.insert_erase hobj]

/-- The heart of the boundary-exit scenario: on a one-particle system
whose particle sits at x equal to width plus 100, one pass of the recycle
loop recycles it (nothing kept), respawns the same pooled entity, leaves
the pool statistics unchanged, and places the replacement at the
off-screen top edge with x inside the horizontal spawn band. -/
lemma snow_recycle_core (env : SnowEnv) (w h wind delta elapsed : ℚ)
    (pool : PoolState SnowP) (pid k2 : Nat)
    (hnoise : ∀ a b c, -1 ≤ env.noise.noise3D a b c ∧ env.noise.noise3D a b c ≤ 1)
    (hsin : ∀ a, -1 ≤ env.sinQ a ∧ env.sinQ a ≤ 1)
    (hrand : ∀ i, 0 ≤ env.rand i ∧ env.rand i < 1)
    (hwind : -1 ≤ wind ∧ wind ≤ 1)
    (hdelta : 0 ≤ delta ∧ delta ≤ 1 / 3)
    (hw : 0 ≤ w)
    (hx : (pool.vals pid).x = w + 100)
    (hdepth : 0 ≤ (pool.vals pid).depth ∧ (pool.vals pid).depth ≤ 1)
    (hwob : 0 ≤ (pool.vals pid).wobbleAmount ∧ (pool.vals pid).wobbleAmount ≤ 30)
    (hactive : pid ∈ pool.active) :
    (snowLoop env w h wind delta elapsed [pid] pool k2).1 = []
    ∧ (snowLoop env w h wind delta elapsed [pid] pool k2).2.1 = [pid]
    ∧ stats (snowLoop env w h wind delta elapsed [pid] pool k2).2.2.1 = stats pool
    ∧ (-50 ≤ (((snowLoop env w h wind delta elapsed [pid] pool k2).2.2.1).vals pid).y
       ∧ (((snowLoop env w h wind delta elapsed [pid] pool k2).2.2.1).vals pid).y ≤ -10
       ∧ -50 ≤ (((snowLoop env w h wind delta elapsed [pid] pool k2).2.2.1).vals pid).x
       ∧ (((snowLoop env w h wind delta elapsed [pid] pool k2).2.2.1).vals pid).x ≤ w + 50) := by
  have hexit := moveSnow_exit env wind delta elapsed w (pool.vals pid)
    hnoise hsin hwind hdelta hx hdepth hwob
  have hloop := snowLoop_single env w h wind delta elapsed pool pid k2 hexit
  have hactive1 : pid ∈ (setVal (setVal pool pid
      (moveSnow env wind delta elapsed (pool.vals pid))) pid
      { moveSnow env wind delta elapsed (pool.vals pid) with visible := false }).active :=
    hactive
  have hsp := snowSpawn_of_recycle env w h true (setVal (setVal pool pid
      (moveSnow env wind delta elapsed (pool.vals pid))) pid
      { moveSnow env wind delta elapsed (pool.vals pid) with visible := false })
    pid k2 none hactive1
  obtain ⟨hr0, hr1⟩ := hrand (k2 + 1)
  obtain ⟨hq0, hq1⟩ := hrand k2
  have hw100 : (0 : ℚ) ≤ w + 100 := by linarith
  refine ⟨by rw [hloop], by rw [hloop]; simp [hsp.1], by rw [hloop]; exact hsp.2.2, ?_⟩
  rw [hloop]
  show -50 ≤ (((snowSpawn env w h true _ k2).2.1).vals pid).y
      ∧ (((snowSpawn env w h true _ k2).2.1).vals pid).y ≤ -10
      ∧ -50 ≤ (((snowSpawn env w h true _ k2).2.1).vals pid).x
      ∧ (((snowSpawn env w h true _ k2).2.1).vals pid).x ≤ w + 50
  rw [hsp.2.1, snowSpawnInit_y_top, snowSpawnInit_x]
  unfold randomRange
  refine ⟨by nlinarith, by nlinarith, ?_, ?_⟩
  · nlinarith [mul_nonneg hq0 hw100]
  · nlinarith [mul_le_mul_of_nonneg_right (le_of_lt hq1) hw100]

/-- Claim C8: recycle on boundary exit.  A snow particle at position x
equal to width plus 100 and y equal to 0 (the horizontal recycling margin
being 60) is recycled on the next update call, and post-update the live
particle count is unchanged at one: the replacement is spawned at the
off-screen top edge (y between -50 and -10, x inside the horizontal spawn
band) and the pool statistics are unchanged.  The frame hypotheses bound
the oracles: noise samples and Math.sin in the unit interval, Math.random
in the unit interval, wind state within the configured strength of at
most one, and a frame delta of at most a third of a second. -/
theorem snow_recycle_on_exit (env : SnowEnv) (w h delta elapsed : ℚ)
    (pool : PoolState SnowP) (pid k : Nat) (windD windT timer : ℚ)
    (hnoise : ∀ a b c, -1 ≤ env.noise.noise3D a b c ∧ env.noise.noise3D a b c ≤ 1)
    (hsin : ∀ a, -1 ≤ env.sinQ a ∧ env.sinQ a ≤ 1)
    (hrand : ∀ i, 0 ≤ env.rand i ∧ env.rand i < 1)
    (hws : 0 ≤ env.windStrength ∧ env.windStrength ≤ 1)
    (hwD : -1 ≤ windD ∧ windD ≤ 1)
    (hwT : -1 ≤ windT ∧ windT ≤ 1)
    (hdelta : 0 ≤ delta ∧ delta ≤ 1 / 3)
    (hw : 0 ≤ w)
    (hx : (pool.vals pid).x = w + 100)
    (hy : (pool.vals pid).y = 0)
    (hdepth : 0 ≤ (pool.vals pid).depth ∧ (pool.vals pid).depth ≤ 1)
    (hwob : 0 ≤ (pool.vals pid).wobbleAmount ∧ (pool.vals pid).wobbleAmount ≤ 30)
    (hactive : pid ∈ pool.active) :
    (snowUpdate env w h delta elapsed ⟨[pid], pool, k, windD, windT, timer⟩).particles.length = 1
    ∧ stats (snowUpdate env w h delta elapsed ⟨[pid], pool, k, windD, windT, timer⟩).pool
        = stats pool
    ∧ ∀ q ∈ (snowUpdate env w h delta elapsed ⟨[pid], pool, k, windD, windT, timer⟩).particles,
        -50 ≤ ((snowUpdate env w h delta elapsed
            ⟨[pid], pool, k, windD, windT, timer⟩).pool.vals q).y
        ∧ ((snowUpdate env w h delta elapsed
            ⟨[pid], pool, k, windD, windT, timer⟩).pool.vals q).y ≤ -10
        ∧ -50 ≤ ((snowUpdate env w h delta elapsed
            ⟨[pid], pool, k, windD, windT, timer⟩).pool.vals q).x
        ∧ ((snowUpdate env w h delta elapsed
            ⟨[pid], pool, k, windD, windT, timer⟩).pool.vals q).x ≤ w + 50 := by
  have ht2 : 0 ≤ delta * (1 / 2) ∧ delta * (1 / 2) ≤ 1 := by
    constructor <;> linarith [hdelta.1, hdelta.2]
  by_cases htimer : timer + delta > 3
  · have hT := wind_target_bound (env.rand k) env.windStrength (hrand k) hws
    have hwind := lerp_unit_bound windD
      (randomRange (-1) 1 (env.rand k) * env.windStrength) (delta * (1 / 2)) hwD hT ht2
    have hcore := snow_recycle_core env w h
      (lerp windD (randomRange (-1) 1 (env.rand k) * env.windStrength) (delta * (1 / 2)))
      delta elapsed pool pid (k + 1) hnoise hsin hrand hwind hdelta hw hx hdepth hwob hactive
    refine ⟨?_, ?_, ?_⟩
    · simp only [snowUpdate, if_pos htimer, List.reverse_cons, List.reverse_nil,
        List.nil_append]
      rw [hcore.1, hcore.2.1]
      simp
    · simp only [snowUpdate, if_pos htimer, List.reverse_cons, List.reverse_nil,
        List.nil_append]
      exact hcore.2.2.1
    · intro q hq
      simp only [snowUpdate, if_pos htimer, List.reverse_cons, List.reverse_nil,
        List.nil_append] at hq ⊢
      rw [hcore.1, hcore.2.1] at hq
      simp at hq
      subst hq
      exact hcore.2.2.2
  · have hwind := lerp_unit_bound windD windT (delta * (1 / 2)) hwD hwT ht2
    have hcore := snow_recycle_core env w h
      (lerp windD windT (delta * (1 / 2)))
      delta elapsed pool pid k hnoise hsin hrand hwind hdelta hw hx hdepth hwob hactive
    refine ⟨?_, ?_, ?_⟩
    · simp only [snowUpdate, if_neg htimer, List.reverse_cons, List.reverse_nil,
        List.nil_append]
      rw [hcore.1, hcore.2.1]
      simp
    · simp only [snowUpdate, if_neg htimer, List.reverse_cons, List.reverse_nil,
        List.nil_append]
      exact hcore.2.2.1
    · intro q hq
      simp only [snowUpdate, if_neg htimer, List.reverse_cons, List.reverse_nil,
        List.nil_append] at hq ⊢
      rw [hcore.1, hcore.2.1] at hq
      simp at hq
      subst hq
      exact hcore.2.2.2

/-- Witness for C8: a concrete one-particle snow system, width 800,
height 600, frame delta one sixtieth, with constant oracle functions. -/
theorem snow_recycle_on_exit_witness :
    (snowUpdate ⟨⟨fun _ _ => 0, fun _ _ _ => 0, fun _ _ _ _ => 0⟩,
        fun _ => 0, fun _ => 1 / 2, 710 / 113, 1⟩ 800 600 (1 / 60) 0
      ⟨[0], ⟨[], {0}, 1, fun _ => ⟨900, 0, 0, 50, 1 / 2, 1, 1, 1, 0, 20, 0, 0, 0, true⟩⟩,
        0, 0, 0, 0⟩).particles.length = 1 :=
  (snow_recycle_on_exit
    ⟨⟨fun _ _ => 0, fun _ _ _ => 0, fun _ _ _ _ => 0⟩,
        fun _ => 0, fun _ => 1 / 2, 710 / 113, 1⟩ 800 600 (1 / 60) 0
    ⟨[], {0}, 1, fun _ => ⟨900, 0, 0, 50, 1 / 2, 1, 1, 1, 0, 20, 0, 0, 0, true⟩⟩
    0 0 0 0 0
    (fun a b c => by constructor <;> norm_num)
    (fun a => by constructor <;> norm_num)
    (fun i => by constructor <;> norm_num)
    (by constructor <;> norm_num)
    (by constructor <;> norm_num)
    (by constructor <;> norm_num)
    (by constructor <;> norm_num)
    (by norm_num)
    (by norm_num)
    (by norm_num)
    (by constructor <;> norm_num)
    (by constructor <;> norm_num)
    (by decide)).1
